import Mathlib

/-!
Shallow embedding of the adaptive decision-policy subsystem of the
inscriptum repository (src/agent), together with theorems settling the
frozen claims about it.

Source files embedded:
- model_updater.py : rule_matches, apply_learned_rules_to_decision,
  deprecate_failing_rule, get_rule_performance
- feedback.py : validate_exploration_hypothesis, process_feedback_for_learning
- exploration.py : should_explore, is_performance_plateaued, is_novel_context,
  generate_alternative_strategy, store_hypothesis
- strategy_evolution.py : create_decision_rule, evolve_strategies (result shape)
- continuous_improver.py : continuous_learning_loop, deprecate_underperforming_rules

Conventions: Python dict keys that a document may lack are Option-typed
fields; dict access that can raise KeyError is modelled with Except; the
Firestore collections are association lists keyed by document id; ISO
timestamps are integers (epoch seconds) and datetime parsing is abstracted;
rational numbers stand for Python floats (all arithmetic the claims touch
is exact at these inputs).
-/

namespace Inscriptum

/-- Decidable equality for Except values, used to state concrete evaluations. -/
instance exceptDecEq {ε α : Type} [DecidableEq ε] [DecidableEq α] :
    DecidableEq (Except ε α) := fun a b =>
  match a, b with
  | .ok x, .ok y =>
      if h : x = y then .isTrue (by rw [h]) else .isFalse (by simp [h])
  | .error x, .error y =>
      if h : x = y then .isTrue (by rw [h]) else .isFalse (by simp [h])
  | .ok _, .error _ => .isFalse (by simp)
  | .error _, .ok _ => .isFalse (by simp)

/-! ### Decision context (the per-message feature bundle) -/

/-- Email document as consumed by rule_matches and apply_learned_rules_to_decision.
The field fromAddr models the dict key named from; timestampHour is the hour of the
parsed ISO-8601 timestamp (datetime.fromisoformat abstracted). -/
structure Email where
  fromAddr : Option String
  subject : Option String
  timestampHour : Int
  has_attachment : Option Bool
  message_id : Option String
  idKey : Option String
  relationship_type : Option String
  time_of_day : Option Int
deriving Repr, DecidableEq

/-- Person context: relationship_type models
person_context.get(relationship, default dict).get(relationship_type), and
importance_score models person_context.get(importance_score, 0). -/
structure PersonContext where
  relationship_type : Option String
  importance_score : ℚ
deriving Repr, DecidableEq

/-- Cluster context: avg_reply_rate models cluster_context.get(avg_reply_rate, 0). -/
structure ClusterContext where
  avg_reply_rate : ℚ
deriving Repr, DecidableEq

/-! ### Rule documents and condition clauses (model_updater.py, rule_matches) -/

/-- One entry of a rule's conditions dict, as dispatched on by rule_matches.
Keys the source does not recognise fall to the other constructor, which
rule_matches silently ignores (there is no else branch in the source). -/
inductive Clause where
  | sender_domain (v : String)
  | relationship_type (v : String)
  | hour_of_day (min max : Option Int)
  | subject_contains (v : String)
  | importance_score (min : Option ℚ)
  | cluster_reply_rate (min : Option ℚ)
  | has_attachment (v : Bool)
  | other (key : String)
deriving Repr, DecidableEq

/-- A learned_rules document. Every field is Option-typed because the
documents are Python dicts and distinct writers store distinct key sets:
update_decision_model stores id, pattern, conditions; create_decision_rule
stores rule_id and condition (singular) instead. Timestamps are epoch seconds. -/
structure RuleDoc where
  id : Option String := none
  rule_id : Option String := none
  pattern : Option String := none
  action : Option String := none
  confidence : Option ℚ := none
  conditions : Option (List Clause) := none
  condition : Option String := none
  description : Option String := none
  created_at : Option Int := none
  status : Option String := none
  deprecated_at : Option Int := none
  deprecation_reason : Option String := none
deriving Repr, DecidableEq

/-- Character-list splitter implementing the Python str.split(separator)
semantics: split at every occurrence of the separator, keeping empty parts. -/
def splitChars (sep : Char) : List Char → List (List Char)
  | [] => [[]]
  | c :: cs =>
    if c == sep then [] :: splitChars sep cs
    else
      match splitChars sep cs with
      | [] => [[c]]
      | r :: rs => (c :: r) :: rs

/-- Sender domain extraction: email.get(from, empty).split(at-sign)[-1]. -/
def senderDomain (e : Email) : String :=
  String.mk ((splitChars '@' (e.fromAddr.getD "").data).getLastD [])

/-- Character-list prefix test used to implement the substring (in) operator. -/
def charsLeadWith : List Char → List Char → Bool
  | [], _ => true
  | _ :: _, [] => false
  | a :: as, b :: bs => a == b && charsLeadWith as bs

/-- Character-list substring test implementing the Python in operator on strings. -/
def charsContain (haystack needle : List Char) : Bool :=
  match haystack with
  | [] => needle.isEmpty
  | _ :: bs => charsLeadWith needle haystack || charsContain bs needle

/-- Case-insensitive substring test: expected.lower() in subject.lower()
(str.lower modelled characterwise by Char.toLower). -/
def containsLowered (haystack needle : String) : Bool :=
  charsContain (haystack.data.map Char.toLower) (needle.data.map Char.toLower)

/-- One iteration of the condition loop in rule_matches (model_updater.py
lines 113-152): returns false exactly when the source would return False
for this key/expected-value pair. -/
def clauseMatches (c : Clause) (email : Email) (person : PersonContext)
    (cluster : ClusterContext) : Bool :=
  match c with
  | .sender_domain v => senderDomain email == v
  | .relationship_type v => person.relationship_type == some v
  | .hour_of_day mn mx =>
      (match mn with
       | some m => !(email.timestampHour < m)
       | none => true) &&
      (match mx with
       | some m => !(m < email.timestampHour)
       | none => true)
  | .subject_contains v => containsLowered (email.subject.getD "") v
  | .importance_score mn =>
      (match mn with
       | some m => !(person.importance_score < m)
       | none => true)
  | .cluster_reply_rate mn =>
      (match mn with
       | some m => !(cluster.avg_reply_rate < m)
       | none => true)
  | .has_attachment v => email.has_attachment == some v
  | .other _ => true

/-- rule_matches (model_updater.py lines 102-155): the conditions mapping is
read with rule.get(conditions, empty dict); every listed condition must hold. -/
def rule_matches (rule : RuleDoc) (email : Email) (person : PersonContext)
    (cluster : ClusterContext) : Bool :=
  (rule.conditions.getD []).all (fun c => clauseMatches c email person cluster)

/-! ### Decision evaluator (model_updater.py, apply_learned_rules_to_decision) -/

/-- Base prediction dict: apply_learned_rules_to_decision reads its action key. -/
structure Prediction where
  action : String
  confidence : ℚ
deriving Repr, DecidableEq

/-- Result of the decision evaluator: either the base prediction returned
unchanged, or the dict built at model_updater.py lines 90-96. -/
inductive Decision where
  | base (p : Prediction)
  | overridden (action : String) (confidence : ℚ) (reasoning : String)
      (learned_rule_id : String) (base_prediction : Prediction)
deriving Repr, DecidableEq

/-- A rule_applications document written at model_updater.py lines 82-88
(the utcnow timestamp field is abstracted away). -/
structure RuleApplication where
  rule_id : String
  email_id : Option String
  overrode_base_prediction : String
  used_learned_action : String
deriving Repr, DecidableEq

/-- Sort key: r.get(confidence, 0). -/
def confKey (r : RuleDoc) : ℚ := r.confidence.getD (mkRat 0 1)

/-- Stable insertion used to model Python list.sort(key=confidence, reverse=True):
an element is placed after every element of not-smaller confidence already
in the accumulator, so equal-confidence elements keep their stream order. -/
def insertByConfDesc (x : RuleDoc) : List RuleDoc → List RuleDoc
  | [] => [x]
  | y :: ys => if confKey y < confKey x then x :: y :: ys else y :: insertByConfDesc x ys

/-- Stable descending sort by confidence (model_updater.py line 73). -/
def sortByConfDesc (rules : List RuleDoc) : List RuleDoc :=
  rules.foldl (fun acc x => insertByConfDesc x acc) []

/-- The rule loop of apply_learned_rules_to_decision (lines 76-99): the first
matching rule is applied; its pattern, id, action and confidence keys are read
by plain dict access, so a missing key raises KeyError.  The first component
collects the rule_applications records persisted before any raise (the db.add
at line 82 happens after the id and action reads but before the confidence read). -/
def applyRulesLoop (email : Email) (person : PersonContext) (cluster : ClusterContext)
    (base : Prediction) : List RuleDoc → List RuleApplication × Except String Decision
  | [] => ([], .ok (.base base))
  | r :: rs =>
    if rule_matches r email person cluster then
      match r.pattern with
      | none => ([], .error "KeyError: pattern")
      | some pat =>
        match r.id with
        | none => ([], .error "KeyError: id")
        | some rid =>
          match r.action with
          | none => ([], .error "KeyError: action")
          | some act =>
            let app : RuleApplication :=
              ⟨rid, email.message_id, base.action, act⟩
            match r.confidence with
            | none => ([app], .error "KeyError: confidence")
            | some conf =>
                ([app], .ok (.overridden act conf ("Learned rule: " ++ pat) rid base))
    else applyRulesLoop email person cluster base rs

/-- apply_learned_rules_to_decision (model_updater.py lines 52-99): sort the
active rules by confidence descending, then apply the first matching rule. -/
def apply_learned_rules_to_decision (activeRules : List RuleDoc) (email : Email)
    (person : PersonContext) (cluster : ClusterContext) (base : Prediction) :
    List RuleApplication × Except String Decision :=
  applyRulesLoop email person cluster base (sortByConfDesc activeRules)

/-! ### Feedback validator (feedback.py) -/

/-- The feedback_data dict: each field models a .get on the corresponding key. -/
structure FeedbackData where
  correct_action : Option String := none
  actual_importance : Option String := none
  changes : Option String := none
deriving Repr, DecidableEq

/-- The exploration_metadata dict stored on a decision: is_exploration models
the truthiness of .get(is_exploration); base_action models the chained read
.get(base_decision, default dict).get(action). -/
structure ExplorationMetadata where
  is_exploration : Bool
  hypothesis_id : Option String
  base_action : Option String
deriving Repr, DecidableEq

/-- An exploration_hypotheses document, restricted to the fields
validate_exploration_hypothesis reads or writes. -/
structure HypothesisDoc where
  status : Option String := none
  validation_result : Option String := none
  validated_at : Option Int := none
  feedback_type : Option String := none
  feedback_data : Option FeedbackData := none
deriving Repr, DecidableEq

/-- Association-list lookup modelling collection.document(key).get(). -/
def storeFind {α : Type} : List (String × α) → String → Option α
  | [], _ => none
  | kv :: tl, k => if kv.1 == k then some kv.2 else storeFind tl k

/-- The is_successful expression of validate_exploration_hypothesis
(feedback.py lines 161-165).  Both sides of the corrected-action comparison
come from .get calls, so two absent values compare equal, exactly as None
equals None in the source. -/
def is_exploration_successful (em : ExplorationMetadata) (ft : Option String)
    (fd : FeedbackData) : Bool :=
  ft == some "action_correct" ||
    (ft == some "action_wrong" && fd.correct_action == em.base_action)

/-- The field dict passed to hypothesis_ref.update at feedback.py lines
172-177, merged into the stored document. -/
def resolutionUpdate (em : ExplorationMetadata) (ft : Option String)
    (fd : FeedbackData) (now : Int) (d : HypothesisDoc) : HypothesisDoc :=
  { d with
    validation_result :=
      some (if is_exploration_successful em ft fd then "validated" else "rejected"),
    validated_at := some now,
    feedback_type := ft,
    feedback_data := some fd }

/-- validate_exploration_hypothesis (feedback.py lines 140-188): when the
metadata carries a hypothesis id and the document exists, its
validation_result, validated_at, feedback_type and feedback_data fields are
overwritten unconditionally; there is no check that the hypothesis is still
pending.  The function never raises. -/
def validate_exploration_hypothesis (em : ExplorationMetadata) (ft : Option String)
    (fd : FeedbackData) (hyps : List (String × HypothesisDoc)) (now : Int) :
    List (String × HypothesisDoc) :=
  match em.hypothesis_id with
  | none => hyps
  | some hid =>
    if (storeFind hyps hid).isSome then
      hyps.map (fun kv =>
        if kv.1 == hid then (kv.1, resolutionUpdate em ft fd now kv.2) else kv)
    else hyps

/-- An agent_decisions document, restricted to the fields
process_feedback_for_learning reads. -/
structure DecisionDoc where
  email_id : Option String := none
  sender : Option String := none
  exploration_metadata : Option ExplorationMetadata := none
deriving Repr, DecidableEq

/-- A training_feedback record as passed to process_feedback_for_learning. -/
structure FeedbackRecord where
  decision_id : String
  feedback_type : Option String := none
  feedback_data : Option FeedbackData := none
deriving Repr, DecidableEq

/-- Side effects process_feedback_for_learning delegates to other learning
modules (people_graph, importance, style_learning); they touch stores other
than the hypothesis store. -/
inductive LearningSideEffect where
  | update_person (sender action : String)
  | update_importance (email_id importance : String)
  | learn_style (email_id changes : String)
deriving Repr, DecidableEq

/-- Python truthiness of an optional string (absent and empty are falsy). -/
def strTruthy : Option String → Bool
  | none => false
  | some s => !s.isEmpty

/-- process_feedback_for_learning (feedback.py lines 82-137): an unknown
decision id is a silent no-op; an exploration decision routes to
validate_exploration_hypothesis; the per-type updates are emitted as side
effects on other stores.  The function never raises. -/
def process_feedback_for_learning (fb : FeedbackRecord)
    (decisions : List (String × DecisionDoc))
    (hyps : List (String × HypothesisDoc)) (now : Int) :
    List (String × HypothesisDoc) × List LearningSideEffect :=
  match storeFind decisions fb.decision_id with
  | none => (hyps, [])
  | some decision =>
    let fd := fb.feedback_data.getD {}
    let hyps' :=
      match decision.exploration_metadata with
      | some em =>
          if em.is_exploration then
            validate_exploration_hypothesis em fb.feedback_type fd hyps now
          else hyps
      | none => hyps
    let effects : List LearningSideEffect :=
      if fb.feedback_type == some "action_wrong" then
        if strTruthy decision.sender && strTruthy fd.correct_action then
          [.update_person (decision.sender.getD "") (fd.correct_action.getD "")]
        else []
      else if fb.feedback_type == some "importance_feedback" then
        if strTruthy decision.email_id && strTruthy fd.actual_importance then
          [.update_importance (decision.email_id.getD "") (fd.actual_importance.getD "")]
        else []
      else if fb.feedback_type == some "response_edited"
          || fb.feedback_type == some "response_discarded" then
        if strTruthy decision.email_id then
          [.learn_style (decision.email_id.getD "") (fd.changes.getD "")]
        else []
      else []
    (hyps', effects)

/-! ### Exploration controller (exploration.py) -/

/-- is_performance_plateaued (exploration.py lines 178-193) applied to the
accuracy series of the recent decisions with feedback. -/
def is_performance_plateaued (performance : List ℚ) : Bool :=
  if performance.length < 20 then false
  else
    let recent_10 := performance.drop (performance.length - 10)
    let previous_10 := (performance.drop (performance.length - 20)).take 10
    if recent_10.isEmpty || previous_10.isEmpty then false
    else
      let avg_recent := recent_10.sum / (recent_10.length : ℚ)
      let avg_previous := previous_10.sum / (previous_10.length : ℚ)
      avg_recent - avg_previous < mkRat 2 100

/-- is_novel_context (exploration.py lines 196-207): the query is limited to
five documents, so the count the source compares against 5 is capped at 5. -/
def is_novel_context (decision_count : Nat) : Bool :=
  min decision_count 5 < 5

/-- In the source (exploration.py line 50) the async function is_novel_context
is invoked without await inside an elif condition; the coroutine object that
call produces is always truthy, so the condition the interpreter actually
evaluates is the constant true, whatever the database holds. -/
def novel_context_branch_condition : Bool := true

/-- Inputs of should_explore after the database reads: confidence models
current_prediction.get(confidence, 0.5); similar_decision_count is the length
of the get_similar_decisions result (query limited to 20); performance is the
accuracy series from get_recent_performance. -/
structure ShouldExploreInput where
  confidence : ℚ
  similar_decision_count : Nat
  performance : List ℚ
deriving Repr, DecidableEq

/-- The exploration-rate cascade of should_explore (exploration.py lines 34-56)
exactly as executed: the fourth branch tests the truthiness of the un-awaited
coroutine, not the value of is_novel_context. -/
def explorationRate (inp : ShouldExploreInput) : ℚ :=
  if inp.confidence < mkRat 6 10 then mkRat 4 10
  else if inp.similar_decision_count < 10 then mkRat 3 10
  else if is_performance_plateaued inp.performance then mkRat 5 10
  else if novel_context_branch_condition then mkRat 4 10
  else mkRat 1 10

/-- should_explore (exploration.py lines 19-60): returns the Bernoulli draw
against the exploration rate together with the rate itself; randomDraw models
the random.random() sample. -/
def should_explore (inp : ShouldExploreInput) (randomDraw : ℚ) : Bool × ℚ :=
  (randomDraw < explorationRate inp, explorationRate inp)

/-- The exploration-rate cascade as the specification section 4.3 states it:
trigger (d) consults the actual novel-context test on the number of times the
cluster key has ever been seen.  Kept separate, under a spec_ name, purely to
compare against the executed explorationRate. -/
def spec_explorationRate (inp : ShouldExploreInput) (cluster_key_seen_count : Nat) : ℚ :=
  if inp.confidence < mkRat 6 10 then mkRat 4 10
  else if inp.similar_decision_count < 10 then mkRat 3 10
  else if is_performance_plateaued inp.performance then mkRat 5 10
  else if is_novel_context cluster_key_seen_count then mkRat 4 10
  else mkRat 1 10

/-- The parsed JSON object returned by the Strategy Proposer during
exploration; each field models one key the source reads by dict access. -/
structure ProposalPayload where
  alternative_action : Option String := none
  hypothesis : Option String := none
  expected_outcome : Option String := none
  success_criteria : Option String := none
deriving Repr, DecidableEq

/-- Outcome of the proposer call inside generate_alternative_strategy: either
the API call or json.loads raised, or a JSON object was obtained. -/
inductive ProposerOutcome where
  | failure (msg : String)
  | payload (p : ProposalPayload)
deriving Repr, DecidableEq

/-- The email_context sub-dict persisted by store_hypothesis
(exploration.py lines 224-229). -/
structure HypothesisEmailContext where
  fromAddr : Option String
  subject : Option String
  relationship_type : Option String
  time_of_day : Option Int
deriving Repr, DecidableEq

/-- An exploration_hypotheses document as written by store_hypothesis
(exploration.py lines 219-233); created_at is epoch seconds. -/
structure StoredHypothesis where
  hypothesis : String
  email_id : Option String
  alternative_action : String
  expected_outcome : String
  email_context : HypothesisEmailContext
  created_at : Int
  status : String
  validation_result : Option String
deriving Repr, DecidableEq

/-- store_hypothesis (exploration.py lines 210-238) document constructor. -/
def mkStoredHypothesis (hypothesisText : String) (email : Email)
    (alternative_action expected_outcome : String) (now : Int) : StoredHypothesis :=
  { hypothesis := hypothesisText,
    email_id := email.idKey,
    alternative_action := alternative_action,
    expected_outcome := expected_outcome,
    email_context :=
      ⟨email.fromAddr, email.subject, email.relationship_type, email.time_of_day⟩,
    created_at := now,
    status := "testing",
    validation_result := none }

/-- Result of generate_alternative_strategy: either the fallback return of the
unchanged current prediction (the except branch), or the exploration dict
built at exploration.py lines 125-134. -/
inductive ExplorationResult where
  | fallback (original : Prediction)
  | exploration (action hypothesisText hypothesis_id expected_outcome
      success_criteria : String) (original_prediction : Prediction) (confidence : ℚ)
deriving Repr, DecidableEq

/-- generate_alternative_strategy (exploration.py lines 63-138).  The dict
accesses happen in source order: hypothesis, alternative_action and
expected_outcome are read while evaluating the store_hypothesis arguments, so
a KeyError on any of them is caught before the hypothesis document is
persisted; success_criteria is only read while building the return dict,
after store_hypothesis has already written the document.  Every raise is
caught by the except branch, which returns the current prediction unchanged. -/
def generate_alternative_strategy (outcome : ProposerOutcome) (email : Email)
    (current_prediction : Prediction) (hyps : List StoredHypothesis)
    (newDocId : String) (now : Int) : ExplorationResult × List StoredHypothesis :=
  match outcome with
  | .failure _ => (.fallback current_prediction, hyps)
  | .payload p =>
    match p.hypothesis with
    | none => (.fallback current_prediction, hyps)
    | some h =>
      match p.alternative_action with
      | none => (.fallback current_prediction, hyps)
      | some aa =>
        match p.expected_outcome with
        | none => (.fallback current_prediction, hyps)
        | some eo =>
          let hyps' := hyps ++ [mkStoredHypothesis h email aa eo now]
          match p.success_criteria with
          | none => (.fallback current_prediction, hyps')
          | some sc =>
              (.exploration aa h newDocId eo sc current_prediction (mkRat 1 2), hyps')

/-! ### Strategy synthesizer (strategy_evolution.py) -/

/-- The pattern dict produced by synthesize_pattern_from_cluster, restricted
to the keys create_decision_rule reads (all by plain dict access). -/
structure Pattern where
  condition : String
  action : String
  confidence : ℚ
  description : String
  source_count : Nat
deriving Repr, DecidableEq

/-- A learned_rules store keyed by document id. -/
abbrev RuleStore := List (String × RuleDoc)

/-- Firestore document(key).set(doc): replace the document if the key exists,
otherwise append it. -/
def storeSet (store : RuleStore) (key : String) (doc : RuleDoc) : RuleStore :=
  if (storeFind store key).isSome then
    store.map (fun kv => if kv.1 == key then (key, doc) else kv)
  else store ++ [(key, doc)]

/-- The document id create_decision_rule derives from the creation timestamp. -/
def learnedRuleId (now : Int) : String :=
  "learned_" ++ toString now

/-- create_decision_rule (strategy_evolution.py lines 192-220): the rule dict
it writes.  Note the predicate is stored under the singular key condition;
no conditions mapping, id or pattern key is written. -/
def create_decision_rule (pattern : Pattern) (now : Int) : RuleDoc :=
  { rule_id := some (learnedRuleId now),
    condition := some pattern.condition,
    action := some pattern.action,
    confidence := some pattern.confidence,
    description := some pattern.description,
    created_at := some now,
    status := some "active" }

/-- create_decision_rule including its persistence (line 218): the rule is
stored unconditionally, keyed by its timestamp-derived id; no lookup of
existing rules happens anywhere in the function. -/
def create_decision_rule_store (store : RuleStore) (pattern : Pattern) (now : Int) :
    RuleStore :=
  storeSet store (learnedRuleId now) (create_decision_rule pattern now)

/-- Active rules of a store, in stream order, paired with their document ids. -/
def activeRulesWithId (store : RuleStore) : List (String × RuleDoc) :=
  store.filter (fun kv => kv.2.status == some "active")

/-! ### Performance monitor (continuous_improver.py, model_updater.py) -/

/-- A feedback document as read by get_rule_performance. -/
structure FeedbackDoc where
  email_id : Option String
  correct : Option Bool
deriving Repr, DecidableEq

/-- Result dict of get_rule_performance.  When a rule has never been applied
the source returns a dict with only times_used and accuracy; correct is set
to zero here because no caller reads it in that case. -/
structure RulePerformance where
  times_used : Nat
  correct : Nat
  accuracy : ℚ
deriving Repr, DecidableEq

/-- The per-application feedback probe of get_rule_performance
(model_updater.py lines 213-222): the first feedback document for the
application's email id, if any, counts when its correct field is True. -/
def appFeedbackCorrect (fbs : List FeedbackDoc) (email_id : Option String) : Bool :=
  match fbs.find? (fun f => f.email_id == email_id) with
  | some f => f.correct == some true
  | none => false

/-- get_rule_performance (model_updater.py lines 192-228). -/
def get_rule_performance (rule_id : String) (apps : List RuleApplication)
    (fbs : List FeedbackDoc) : RulePerformance :=
  let my := apps.filter (fun a => a.rule_id == rule_id)
  if my.isEmpty then ⟨0, 0, 0⟩
  else
    let correct := (my.filter (fun a => appFeedbackCorrect fbs a.email_id)).length
    ⟨my.length, correct, mkRat (correct : Int) my.length⟩

/-- Age in whole days, as Python timedelta.days computes it (floor division). -/
def ageDays (now created : Int) : Int :=
  Int.fdiv (now - created) 86400

/-- Reason string of the low-accuracy branch (Python percent-formatting of
the float is abstracted to toString). -/
def lowAccuracyReason (accuracy : ℚ) (times_used : Nat) : String :=
  "Low accuracy: " ++ toString accuracy ++ " over " ++ toString times_used ++ " uses"

/-- Reason string of the never-used branch. -/
def neverUsedReason (age : Int) : String :=
  "Never used in " ++ toString age ++ " days - likely not applicable"

/-- The field dict deprecate_failing_rule passes to document.update
(model_updater.py lines 183-187), merged into the stored rule. -/
def deprecationUpdate (reason : String) (now : Int) (r : RuleDoc) : RuleDoc :=
  { r with
    status := some "deprecated",
    deprecated_at := some now,
    deprecation_reason := some reason }

/-- deprecate_failing_rule (model_updater.py lines 175-189): updates the
document in place with status deprecated, the timestamp and the reason. -/
def deprecate_failing_rule (store : RuleStore) (rule_id : String) (reason : String)
    (now : Int) : RuleStore :=
  store.map (fun kv =>
    if kv.1 == rule_id then (kv.1, deprecationUpdate reason now kv.2) else kv)

/-- One iteration of the per-rule loop of deprecate_underperforming_rules
(continuous_improver.py lines 248-273), threading the store and the
deprecation counter. -/
def depStep (apps : List RuleApplication) (fbs : List FeedbackDoc) (now : Int)
    (acc : RuleStore × Nat) (kv : String × RuleDoc) : RuleStore × Nat :=
  let perf := get_rule_performance kv.1 apps fbs
  if 10 ≤ perf.times_used ∧ perf.accuracy < mkRat 1 2 then
    (deprecate_failing_rule acc.1 kv.1
        (lowAccuracyReason perf.accuracy perf.times_used) now,
     acc.2 + 1)
  else if perf.times_used = 0 then
    let age := ageDays now (kv.2.created_at.getD now)
    if 30 < age then
      (deprecate_failing_rule acc.1 kv.1 (neverUsedReason age) now, acc.2 + 1)
    else acc
  else acc

/-- deprecate_underperforming_rules (continuous_improver.py lines 230-275):
every active rule is checked against its measured performance; it is
deprecated when used at least 10 times with accuracy below one half, or when
never used and created more than 30 days ago (a missing created_at defaults
to the current time, giving age zero).  Returns the updated store and the
count of rules deprecated this cycle. -/
def deprecate_underperforming_rules (store : RuleStore) (apps : List RuleApplication)
    (fbs : List FeedbackDoc) (now : Int) : RuleStore × Nat :=
  (activeRulesWithId store).foldl (depStep apps fbs now) (store, 0)

/-! ### Scheduler (continuous_improver.py, continuous_learning_loop) -/

/-- A value of the dict evolve_strategies returns. -/
inductive EvolveVal where
  | nat (n : Nat)
  | rules (l : List RuleDoc)
  | weightOpt (improved : Bool)
deriving Repr, DecidableEq

/-- The evolve_strategies result before conversion to its dict
(strategy_evolution.py lines 70-75). -/
structure EvolutionResults where
  new_rules_created : Nat
  rules_deprecated : Nat
  weight_optimization_improved : Bool
  new_rules : List RuleDoc
deriving Repr, DecidableEq

/-- The dict literal evolve_strategies returns (strategy_evolution.py lines
70-75): exactly the keys new_rules_created, rules_deprecated,
weight_optimization and new_rules, in that order. -/
def evolveResultDict (r : EvolutionResults) : List (String × EvolveVal) :=
  [("new_rules_created", .nat r.new_rules_created),
   ("rules_deprecated", .nat r.rules_deprecated),
   ("weight_optimization", .weightOpt r.weight_optimization_improved),
   ("new_rules", .rules r.new_rules)]

/-- Python dict access d[k]: raises KeyError when the key is absent. -/
def dictGet (d : List (String × EvolveVal)) (k : String) : Except String EvolveVal :=
  match d.find? (fun kv => kv.1 == k) with
  | some kv => .ok kv.2
  | none => .error ("KeyError: " ++ k)

/-- External outcomes one learning-cycle body consumes: step 1 (performance
metrics and its prints), step 2 (evolve_strategies), and everything from step
3 on bundled as restResult because control only reaches it if the earlier
dict reads succeed. -/
structure CycleInputs where
  metricsResult : Except String Unit
  evolveResult : Except String EvolutionResults
  restResult : Except String Unit
deriving Repr

/-- The body of one iteration of continuous_learning_loop
(continuous_improver.py lines 49-114), returning the names of the steps that
executed and either normal completion or the exception that escaped to the
cycle boundary.  After evolve_strategies returns, line 60 immediately reads
the key validated_hypotheses from its result dict. -/
def cycleBody (inp : CycleInputs) : List String × Except String Unit :=
  match inp.metricsResult with
  | .error m => (["analyze_performance"], .error m)
  | .ok _ =>
    match inp.evolveResult with
    | .error m => (["analyze_performance", "evolve_strategies"], .error m)
    | .ok results =>
      match dictGet (evolveResultDict results) "validated_hypotheses" with
      | .error m => (["analyze_performance", "evolve_strategies"], .error m)
      | .ok _ =>
        match dictGet (evolveResultDict results) "discovered_patterns" with
        | .error m => (["analyze_performance", "evolve_strategies"], .error m)
        | .ok _ =>
          match inp.restResult with
          | .error m =>
              (["analyze_performance", "evolve_strategies", "later_steps"], .error m)
          | .ok _ =>
              (["analyze_performance", "evolve_strategies", "later_steps"], .ok ())

/-- Observable effect of one loop iteration: what was logged as a cycle error
and how long the loop then sleeps, in seconds. -/
structure IterEffect where
  loggedError : Option String
  sleepSeconds : Nat
deriving Repr, DecidableEq

/-- Status of the loop after one iteration: it either continues with the next
iteration or the process has crashed on an exception that escaped the cycle
boundary. -/
inductive LoopStatus where
  | nextIteration (n : Nat) (effect : IterEffect)
  | crashed (msg : String)
deriving Repr, DecidableEq

/-- One iteration of continuous_learning_loop (lines 43-122): the whole cycle
body, including the interval sleep, runs inside try; except Exception catches
any exception the body raises, logs it, and sleeps the fixed 600-second
backoff before the next cycle. -/
def loopStep (intervalHours : Nat) (inputs : Nat → CycleInputs) (n : Nat) : LoopStatus :=
  match (cycleBody (inputs n)).2 with
  | .ok _ => .nextIteration (n + 1) ⟨none, intervalHours * 3600⟩
  | .error m => .nextIteration (n + 1) ⟨some m, 600⟩

/-- Policy-Store order invariant: every element is of not-larger sort key
than each of its predecessors (confidence descending). -/
def SortedDesc (l : List RuleDoc) : Prop :=
  List.Pairwise (fun a b => confKey b ≤ confKey a) l

/-! ### Concrete documents used by witnesses and counterexamples -/

/-- Rule of the specification scenario: sender_domain acme.com, action
archive, confidence 0.9. -/
def acmeRule : RuleDoc :=
  { id := some "r1", pattern := some "acme pattern", action := some "archive",
    confidence := some (mkRat 9 10), conditions := some [.sender_domain "acme.com"],
    status := some "active" }

/-- Email of the specification scenario: sender at acme.com, subject hi. -/
def acmeEmail : Email :=
  { fromAddr := some "bob@acme.com", subject := some "hi", timestampHour := 9,
    has_attachment := none, message_id := some "m1", idKey := some "e1",
    relationship_type := some "work", time_of_day := some 9 }

/-- A person context with no known relationship. -/
def demoPerson : PersonContext := ⟨none, mkRat 0 1⟩

/-- A cluster context with zero reply rate. -/
def demoCluster : ClusterContext := ⟨mkRat 0 1⟩

/-- A base prediction of star with confidence 0.7. -/
def demoBase : Prediction := ⟨"star", mkRat 7 10⟩

/-- A synthesized pattern candidate. -/
def demoPattern : Pattern := ⟨"relationship_type == work", "archive", mkRat 4 5, "d", 3⟩

/-- A rule application document for a given rule and email number. -/
def mkApp (rid : String) (n : Nat) : RuleApplication :=
  ⟨rid, some ("e" ++ toString n), "star", "archive"⟩

/-- Twelve applications of rule r1 and eight of rule r2. -/
def demoApps : List RuleApplication :=
  ((List.range 12).map (mkApp "r1")) ++ ((List.range 8).map (fun n => mkApp "r2" (100 + n)))

/-- Feedback marking the first five applications of r1 correct (accuracy 5/12
for r1; r2 has no matching feedback at all, accuracy 0 over 8 uses). -/
def demoFbs : List FeedbackDoc :=
  (List.range 5).map (fun n => ⟨some ("e" ++ toString n), some true⟩)

/-- An active rule document for r1, created at epoch zero. -/
def demoRule1 : RuleDoc :=
  { id := some "r1", action := some "archive", confidence := some (mkRat 4 5),
    created_at := some 0, status := some "active" }

/-- An active rule document for r2, created at epoch zero. -/
def demoRule2 : RuleDoc :=
  { id := some "r2", action := some "star", confidence := some (mkRat 1 2),
    created_at := some 0, status := some "active" }

/-- A store holding the two active demo rules. -/
def demoRuleStore : RuleStore := [("r1", demoRule1), ("r2", demoRule2)]

/-- Exploration metadata pointing at hypothesis h1 with base action archive. -/
def demoEm : ExplorationMetadata := ⟨true, some "h1", some "archive"⟩

/-- A hypothesis document that has already been resolved to validated at time
100, with empty evidence. -/
def resolvedHyp : HypothesisDoc :=
  { status := some "testing", validation_result := some "validated",
    validated_at := some 100, feedback_type := some "action_correct",
    feedback_data := some {} }

/-- A hypothesis document still pending resolution. -/
def pendingHyp : HypothesisDoc :=
  { status := some "testing", validation_result := none }

/-- A decision store with one exploration decision d1 linked to h1. -/
def demoDecisions : List (String × DecisionDoc) :=
  [("d1", { email_id := some "e1", sender := some "bob@acme.com",
            exploration_metadata := some demoEm })]

/-- A second feedback event on decision d1, disagreeing with the exploration
and with the base action. -/
def secondFb : FeedbackRecord :=
  { decision_id := "d1", feedback_type := some "action_wrong",
    feedback_data := some { correct_action := some "star" } }

/-- Cycle inputs where the metrics step and evolve_strategies both return
normally (empty evolution results) and the abstract later steps would too. -/
def demoCycleInputs : CycleInputs :=
  ⟨.ok (), .ok ⟨0, 0, false, []⟩, .ok ()⟩

/-! ### Theorems -/

/-- C9: a rule whose conditions mapping is absent or empty matches every
decision context vacuously, and every rule document written by
create_decision_rule has no conditions mapping at all (its predicate is
stored under the singular key condition), so such rules match everything. -/
theorem c9_empty_conditions_match_everything :
    (∀ r : RuleDoc, (r.conditions = none ∨ r.conditions = some []) →
      ∀ (e : Email) (pc : PersonContext) (cc : ClusterContext),
        rule_matches r e pc cc = true) ∧
    (∀ (p : Pattern) (now : Int),
      (create_decision_rule p now).conditions = none ∧
      (create_decision_rule p now).condition = some p.condition) := by
  constructor
  · intro r h e pc cc
    rcases h with h | h <;> simp [rule_matches, h]
  · intro p now
    exact ⟨rfl, rfl⟩

/-- Witness for C9: the vacuous-match theorem applied to a concrete
conditions-free rule and the acme context, and to a concrete created rule. -/
theorem c9_witness :
    rule_matches { conditions := none } acmeEmail demoPerson demoCluster = true ∧
    (create_decision_rule demoPattern 123).conditions = none := by
  refine ⟨c9_empty_conditions_match_everything.1 _ (Or.inl rfl) _ _ _, ?_⟩
  exact (c9_empty_conditions_match_everything.2 demoPattern 123).1

/-- C4 (code bug): at an input where no documented trigger fires (confidence
0.7, 15 prior similar decisions, no plateau data, cluster key seen 100 times
so not novel) the code still yields probability 4/10, because the un-awaited
coroutine makes the novel-context branch unconditionally true, while the
specified cascade yields the 1/10 baseline.  The final two conjuncts check
the specification scenario that does hold: confidence 0.5 gives rate 4/10 and
a draw of 0.35 explores. -/
theorem c4_exploration_rate_divergence :
    explorationRate ⟨mkRat 7 10, 15, []⟩ = mkRat 4 10 ∧
    is_novel_context 100 = false ∧
    spec_explorationRate ⟨mkRat 7 10, 15, []⟩ 100 = mkRat 1 10 ∧
    explorationRate ⟨mkRat 7 10, 15, []⟩ ≠ spec_explorationRate ⟨mkRat 7 10, 15, []⟩ 100 ∧
    explorationRate ⟨mkRat 1 2, 0, []⟩ = mkRat 4 10 ∧
    (should_explore ⟨mkRat 1 2, 0, []⟩ (mkRat 35 100)).1 = true := by
  decide

/-- C7: one scheduler iteration never crashes the process; whatever the cycle
body does, the loop proceeds to iteration n+1, and when the body raises, the
exception is logged and the loop sleeps the fixed 600-second backoff. -/
theorem c7_cycle_failure_isolation (intervalHours : Nat) (inputs : Nat → CycleInputs)
    (n : Nat) :
    (∃ eff, loopStep intervalHours inputs n = .nextIteration (n + 1) eff) ∧
    (∀ m, (cycleBody (inputs n)).2 = .error m →
      loopStep intervalHours inputs n = .nextIteration (n + 1) ⟨some m, 600⟩) ∧
    ((cycleBody (inputs n)).2 = .ok () →
      loopStep intervalHours inputs n =
        .nextIteration (n + 1) ⟨none, intervalHours * 3600⟩) := by
  refine ⟨?_, ?_, ?_⟩
  · cases h : (cycleBody (inputs n)).2 with
    | ok v => exact ⟨⟨none, intervalHours * 3600⟩, by simp [loopStep, h]⟩
    | error m => exact ⟨⟨some m, 600⟩, by simp [loopStep, h]⟩
  · intro m hm
    simp [loopStep, hm]
  · intro hok
    simp [loopStep, hok]

/-- Witness for C7: a cycle whose metrics step raises is caught, logged and
followed by the 600-second backoff into iteration 1. -/
theorem c7_witness :
    (cycleBody ⟨.error "boom", .ok ⟨1, 0, false, []⟩, .ok ()⟩).2 = .error "boom" ∧
    loopStep 6 (fun _ => ⟨.error "boom", .ok ⟨1, 0, false, []⟩, .ok ()⟩) 0 =
      .nextIteration 1 ⟨some "boom", 600⟩ := by
  refine ⟨by rfl, ?_⟩
  exact (c7_cycle_failure_isolation 6 (fun _ => ⟨.error "boom", .ok ⟨1, 0, false, []⟩, .ok ()⟩) 0).2.1
    "boom" (by rfl)

/-- C10: whenever the metrics step succeeds and evolve_strategies returns
normally, the result dict carries exactly the four keys new_rules_created,
rules_deprecated, weight_optimization and new_rules, so the read of
validated_hypotheses at continuous_improver.py line 60 raises KeyError; the
steps after strategy evolution never execute, whatever they would have done,
and the iteration takes the 600-second backoff instead of the interval sleep. -/
theorem c10_validated_hypotheses_keyerror (inp : CycleInputs)
    (results : EvolutionResults)
    (hm : inp.metricsResult = Except.ok ())
    (he : inp.evolveResult = Except.ok results) :
    (evolveResultDict results).map Prod.fst =
      ["new_rules_created", "rules_deprecated", "weight_optimization", "new_rules"] ∧
    cycleBody inp =
      (["analyze_performance", "evolve_strategies"],
       .error "KeyError: validated_hypotheses") ∧
    (∀ (intervalHours n : Nat) (inputs : Nat → CycleInputs), inputs n = inp →
      loopStep intervalHours inputs n =
        .nextIteration (n + 1) ⟨some "KeyError: validated_hypotheses", 600⟩) := by
  obtain ⟨mr, er, rr⟩ := inp
  cases hm
  cases he
  refine ⟨rfl, rfl, ?_⟩
  intro intervalHours n inputs hinp
  simp [loopStep, hinp]
  rfl

/-- Witness for C10: the KeyError theorem applied to a concrete successful
cycle input with empty evolution results. -/
theorem c10_witness :
    demoCycleInputs.metricsResult = Except.ok () ∧
    demoCycleInputs.evolveResult = Except.ok ⟨0, 0, false, []⟩ ∧
    cycleBody demoCycleInputs =
      (["analyze_performance", "evolve_strategies"],
       .error "KeyError: validated_hypotheses") := by
  refine ⟨rfl, rfl, ?_⟩
  exact (c10_validated_hypotheses_keyerror demoCycleInputs ⟨0, 0, false, []⟩ rfl rfl).2.1

/-- C8 counterexample: a proposer payload that parses and carries the
hypothesis, alternative_action and expected_outcome fields but lacks
success_criteria makes generate_alternative_strategy return the original
prediction, yet the hypothesis document has already been persisted, so the
claim that no hypothesis record is persisted on fallback is false. -/
theorem c8_counterexample :
    generate_alternative_strategy (.payload ⟨some "star", some "h", some "eo", none⟩)
        acmeEmail demoBase [] "hid1" 50 =
      (.fallback demoBase, [mkStoredHypothesis "h" acmeEmail "star" "eo" 50]) ∧
    [mkStoredHypothesis "h" acmeEmail "star" "eo" 50] ≠ ([] : List StoredHypothesis) := by
  decide

/-- C8 amended: on proposer failure, or on a payload missing hypothesis,
alternative_action or expected_outcome, the original prediction is returned
unchanged and no hypothesis is persisted; but when only success_criteria is
missing, the original prediction is returned while the hypothesis document
has already been stored, because the store happens before that field is read. -/
theorem c8_fallback_behaviour :
    (∀ (m : String) (e : Email) (p : Prediction) (s : List StoredHypothesis)
        (i : String) (t : Int),
      generate_alternative_strategy (.failure m) e p s i t = (.fallback p, s)) ∧
    (∀ (aa eo sc : Option String) (e : Email) (p : Prediction)
        (s : List StoredHypothesis) (i : String) (t : Int),
      generate_alternative_strategy (.payload ⟨aa, none, eo, sc⟩) e p s i t =
        (.fallback p, s)) ∧
    (∀ (h : String) (eo sc : Option String) (e : Email) (p : Prediction)
        (s : List StoredHypothesis) (i : String) (t : Int),
      generate_alternative_strategy (.payload ⟨none, some h, eo, sc⟩) e p s i t =
        (.fallback p, s)) ∧
    (∀ (h aa : String) (sc : Option String) (e : Email) (p : Prediction)
        (s : List StoredHypothesis) (i : String) (t : Int),
      generate_alternative_strategy (.payload ⟨some aa, some h, none, sc⟩) e p s i t =
        (.fallback p, s)) ∧
    (∀ (h aa eo : String) (e : Email) (p : Prediction) (s : List StoredHypothesis)
        (i : String) (t : Int),
      generate_alternative_strategy (.payload ⟨some aa, some h, some eo, none⟩) e p s i t =
        (.fallback p, s ++ [mkStoredHypothesis h e aa eo t])) ∧
    (∀ (h aa eo sc : String) (e : Email) (p : Prediction) (s : List StoredHypothesis)
        (i : String) (t : Int),
      generate_alternative_strategy (.payload ⟨some aa, some h, some eo, some sc⟩) e p s i t =
        (.exploration aa h i eo sc p (mkRat 1 2), s ++ [mkStoredHypothesis h e aa eo t])) := by
  refine ⟨fun _ _ _ _ _ _ => rfl, fun _ _ _ _ _ _ _ _ => rfl,
    fun _ _ _ _ _ _ _ _ => rfl, fun _ _ _ _ _ _ _ _ => rfl,
    fun _ _ _ _ _ _ _ _ => rfl, fun _ _ _ _ _ _ _ _ _ => rfl⟩

/-- C6 counterexample: running create_decision_rule twice on the same
candidate pattern at two timestamps leaves two active rules with identical
predicate and action, so the claimed duplicate check does not exist. -/
theorem c6_counterexample :
    (activeRulesWithId
      (create_decision_rule_store (create_decision_rule_store [] demoPattern 100)
        demoPattern 200)).map (fun kv => (kv.2.condition, kv.2.action, kv.2.status)) =
    [(some "relationship_type == work", some "archive", some "active"),
     (some "relationship_type == work", some "archive", some "active")] := by
  decide

/-- C6 amended: create_decision_rule persists its rule unconditionally under
a fresh timestamp-derived document id, performing no lookup of existing
active rules, so whatever the store already contains the new active rule
with the pattern's predicate and action is appended. -/
theorem c6_rule_creation_unconditional (store : RuleStore) (p : Pattern) (now : Int)
    (hfresh : storeFind store (learnedRuleId now) = none) :
    create_decision_rule_store store p now =
      store ++ [(learnedRuleId now, create_decision_rule p now)] ∧
    (create_decision_rule p now).condition = some p.condition ∧
    (create_decision_rule p now).action = some p.action ∧
    (create_decision_rule p now).status = some "active" := by
  refine ⟨?_, rfl, rfl, rfl⟩
  simp [create_decision_rule_store, storeSet, hfresh]

/-- Witness for C6 amended: creating the demo pattern at time 100 over a
store already holding an identical active rule appends a second copy. -/
theorem c6_witness :
    storeFind [("x", create_decision_rule demoPattern 50)] (learnedRuleId 100) = none ∧
    create_decision_rule_store [("x", create_decision_rule demoPattern 50)] demoPattern 100 =
      [("x", create_decision_rule demoPattern 50),
       (learnedRuleId 100, create_decision_rule demoPattern 100)] := by
  refine ⟨by decide, ?_⟩
  exact (c6_rule_creation_unconditional [("x", create_decision_rule demoPattern 50)]
    demoPattern 100 (by decide)).1

/-- Helper: looking up the updated key after a keyed in-place map update
returns the image of the original first binding. -/
theorem storeFind_map_update {α : Type} (s : List (String × α)) (key : String)
    (f : α → α) :
    storeFind (s.map (fun kv => if kv.1 == key then (kv.1, f kv.2) else kv)) key =
      (storeFind s key).map f := by
  induction s with
  | nil => rfl
  | cons kv tl ih =>
    simp only [beq_iff_eq] at ih
    by_cases h : kv.1 = key
    · simp [storeFind, h]
    · simp [storeFind, h, ih]

/-- Helper: a keyed in-place map update leaves every other key unchanged. -/
theorem storeFind_map_update_ne {α : Type} (s : List (String × α)) (key k : String)
    (f : α → α) (h : k ≠ key) :
    storeFind (s.map (fun kv => if kv.1 == key then (kv.1, f kv.2) else kv)) k =
      storeFind s k := by
  induction s with
  | nil => rfl
  | cons kv tl ih =>
    simp only [beq_iff_eq] at ih
    have hke : ¬(key = k) := fun e => h e.symm
    by_cases hk : kv.1 = key
    · have hne : ¬(kv.1 = k) := by rw [hk]; exact hke
      simp [storeFind, hk, hne, hke, ih]
    · by_cases hkk : kv.1 = k
      · simp [storeFind, hk, hkk, h, ih]
      · simp [storeFind, hk, hkk, ih]

/-- Helper: validate_exploration_hypothesis on a metadata record carrying a
hypothesis id that resolves to an existing document overwrites that
document's resolution fields with values derived from the new feedback. -/
theorem validate_resolves_found (em : ExplorationMetadata) (ft : Option String)
    (fd : FeedbackData) (hyps : List (String × HypothesisDoc)) (now : Int)
    (hid : String) (doc : HypothesisDoc)
    (hh : em.hypothesis_id = some hid) (hfind : storeFind hyps hid = some doc) :
    storeFind (validate_exploration_hypothesis em ft fd hyps now) hid =
      some (resolutionUpdate em ft fd now doc) := by
  unfold validate_exploration_hypothesis
  rw [hh]
  simp only [hfind, Option.isSome_some, if_true]
  rw [storeFind_map_update hyps hid (resolutionUpdate em ft fd now), hfind]
  rfl

/-- C3: on feedback for an exploration decision, the linked hypothesis is
marked validated exactly when the feedback type is action_correct, or it is
action_wrong with the corrected action equal to the base (pre-exploration)
action recorded in the exploration metadata; in every other case it is
marked rejected; and the resolution evidence (feedback type and data) is
stored on the document together with the resolution timestamp. -/
theorem c3_hypothesis_validation_rule (em : ExplorationMetadata) (ft : Option String)
    (fd : FeedbackData) (hyps : List (String × HypothesisDoc)) (now : Int)
    (hid : String) (doc : HypothesisDoc)
    (hh : em.hypothesis_id = some hid) (hfind : storeFind hyps hid = some doc) :
    ∃ doc2, storeFind (validate_exploration_hypothesis em ft fd hyps now) hid = some doc2 ∧
      (doc2.validation_result = some "validated" ↔
        is_exploration_successful em ft fd = true) ∧
      (doc2.validation_result = some "rejected" ↔
        is_exploration_successful em ft fd = false) ∧
      (is_exploration_successful em ft fd = true ↔
        ft = some "action_correct" ∨
          (ft = some "action_wrong" ∧ fd.correct_action = em.base_action)) ∧
      doc2.validated_at = some now ∧
      doc2.feedback_type = ft ∧
      doc2.feedback_data = some fd := by
  refine ⟨resolutionUpdate em ft fd now doc,
    validate_resolves_found em ft fd hyps now hid doc hh hfind, ?_, ?_, ?_, rfl, rfl, rfl⟩
  · cases hb : is_exploration_successful em ft fd <;> simp [resolutionUpdate, hb]
  · cases hb : is_exploration_successful em ft fd <;> simp [resolutionUpdate, hb]
  · simp [is_exploration_successful]

/-- Witness for C3: the specification scenario.  Feedback action_wrong with
corrected action archive on an exploration whose base action was archive
resolves the pending hypothesis h1 to validated. -/
theorem c3_witness :
    demoEm.hypothesis_id = some "h1" ∧
    storeFind [("h1", pendingHyp)] "h1" = some pendingHyp ∧
    (∃ doc2,
      storeFind (validate_exploration_hypothesis demoEm (some "action_wrong")
          { correct_action := some "archive" } [("h1", pendingHyp)] 300) "h1" = some doc2 ∧
      (doc2.validation_result = some "validated" ↔
        is_exploration_successful demoEm (some "action_wrong")
          { correct_action := some "archive" } = true) ∧
      (doc2.validation_result = some "rejected" ↔
        is_exploration_successful demoEm (some "action_wrong")
          { correct_action := some "archive" } = false) ∧
      (is_exploration_successful demoEm (some "action_wrong")
          { correct_action := some "archive" } = true ↔
        (some "action_wrong" : Option String) = some "action_correct" ∨
          ((some "action_wrong" : Option String) = some "action_wrong" ∧
            ({ correct_action := some "archive" } : FeedbackData).correct_action =
              demoEm.base_action)) ∧
      doc2.validated_at = some 300 ∧
      doc2.feedback_type = some "action_wrong" ∧
      doc2.feedback_data = some { correct_action := some "archive" }) ∧
    is_exploration_successful demoEm (some "action_wrong")
      { correct_action := some "archive" } = true := by
  refine ⟨rfl, rfl, ?_, by decide⟩
  exact c3_hypothesis_validation_rule demoEm (some "action_wrong")
    { correct_action := some "archive" } [("h1", pendingHyp)] 300 "h1" pendingHyp rfl rfl

/-- C2 counterexample: hypothesis h1 is already resolved (validated at time
100), yet a second feedback event on the same hypothesis id flips the stored
validation result to rejected, moves the resolution timestamp to 200 and
replaces the stored evidence, so re-resolution is not a no-op. -/
theorem c2_counterexample :
    resolvedHyp.validation_result = some "validated" ∧
    resolvedHyp.validated_at = some 100 ∧
    storeFind (process_feedback_for_learning secondFb demoDecisions
        [("h1", resolvedHyp)] 200).1 "h1" =
      some { resolvedHyp with
        validation_result := some "rejected", validated_at := some 200,
        feedback_type := some "action_wrong",
        feedback_data := some { correct_action := some "star" } } ∧
    (some "rejected" : Option String) ≠ some "validated" ∧
    (some (200 : Int)) ≠ some (100 : Int) := by
  decide

/-- C2 amended: processing a second feedback event on an already-resolved
hypothesis re-runs resolution unconditionally; the stored validation result,
resolution timestamp and evidence are overwritten with values derived from
the new feedback event (and no exception reaches the caller: the evaluator
is total).  Only a feedback event whose derived resolution data coincides
with the stored one leaves the document unchanged. -/
theorem c2_second_feedback_overwrites (fb : FeedbackRecord)
    (decisions : List (String × DecisionDoc)) (hyps : List (String × HypothesisDoc))
    (now : Int) (d : DecisionDoc) (em : ExplorationMetadata) (hid : String)
    (doc : HypothesisDoc) (prior : String)
    (hd : storeFind decisions fb.decision_id = some d)
    (hem : d.exploration_metadata = some em)
    (hex : em.is_exploration = true)
    (hh : em.hypothesis_id = some hid)
    (hfind : storeFind hyps hid = some doc)
    (_hres : doc.validation_result = some prior) :
    storeFind (process_feedback_for_learning fb decisions hyps now).1 hid =
      some { doc with
        validation_result :=
          some (if is_exploration_successful em fb.feedback_type (fb.feedback_data.getD {})
                then "validated" else "rejected"),
        validated_at := some now,
        feedback_type := fb.feedback_type,
        feedback_data := some (fb.feedback_data.getD {}) } := by
  unfold process_feedback_for_learning
  rw [hd]
  simp only [hem, hex, if_true]
  exact validate_resolves_found em fb.feedback_type (fb.feedback_data.getD {}) hyps now
    hid doc hh hfind

/-- Witness for C2 amended: the overwrite theorem applied to the concrete
second feedback event on the already-validated hypothesis h1. -/
theorem c2_witness :
    storeFind demoDecisions "d1" =
      some { email_id := some "e1", sender := some "bob@acme.com",
             exploration_metadata := some demoEm } ∧
    resolvedHyp.validation_result = some "validated" ∧
    storeFind (process_feedback_for_learning secondFb demoDecisions
        [("h1", resolvedHyp)] 200).1 "h1" =
      some { resolvedHyp with
        validation_result :=
          some (if is_exploration_successful demoEm secondFb.feedback_type
                  (secondFb.feedback_data.getD {}) then "validated" else "rejected"),
        validated_at := some 200,
        feedback_type := secondFb.feedback_type,
        feedback_data := some (secondFb.feedback_data.getD {}) } := by
  refine ⟨rfl, rfl, ?_⟩
  exact c2_second_feedback_overwrites secondFb demoDecisions [("h1", resolvedHyp)] 200
    { email_id := some "e1", sender := some "bob@acme.com",
      exploration_metadata := some demoEm }
    demoEm "h1" resolvedHyp "validated" rfl rfl rfl rfl rfl rfl

/-- Helper: inserting into the accumulator is a permutation of consing. -/
theorem insertByConfDesc_perm (x : RuleDoc) (l : List RuleDoc) :
    (insertByConfDesc x l).Perm (x :: l) := by
  induction l with
  | nil => exact List.Perm.refl _
  | cons y ys ih =>
    unfold insertByConfDesc
    by_cases h : confKey y < confKey x
    · rw [if_pos h]
    · rw [if_neg h]
      exact (List.Perm.cons y ih).trans (List.Perm.swap x y ys)

/-- Helper: the stable confidence sort permutes the rule list. -/
theorem sortByConfDesc_perm (l : List RuleDoc) : (sortByConfDesc l).Perm l := by
  suffices hgen : ∀ acc : List RuleDoc,
      (l.foldl (fun a x => insertByConfDesc x a) acc).Perm (l ++ acc) by
    simpa [sortByConfDesc] using hgen []
  induction l with
  | nil => intro acc; simp
  | cons x xs ih =>
    intro acc
    simp only [List.foldl_cons, List.cons_append]
    exact ((ih (insertByConfDesc x acc)).trans
      (List.Perm.append_left xs (insertByConfDesc_perm x acc))).trans List.perm_middle

/-- Helper: inserting into a confidence-descending list keeps it descending. -/
theorem insertByConfDesc_sorted (x : RuleDoc) (l : List RuleDoc) (h : SortedDesc l) :
    SortedDesc (insertByConfDesc x l) := by
  induction l with
  | nil => simp [SortedDesc, insertByConfDesc]
  | cons y ys ih =>
    rcases h with _ | ⟨hy, hys⟩
    unfold insertByConfDesc
    by_cases hlt : confKey y < confKey x
    · rw [if_pos hlt]
      refine List.Pairwise.cons ?_ (List.Pairwise.cons hy hys)
      intro z hz
      rcases List.mem_cons.mp hz with rfl | hz2
      · exact le_of_lt hlt
      · exact le_trans (hy z hz2) (le_of_lt hlt)
    · rw [if_neg hlt]
      refine List.Pairwise.cons ?_ (ih hys)
      intro z hz
      have hz3 := (insertByConfDesc_perm x ys).mem_iff.mp hz
      rcases List.mem_cons.mp hz3 with rfl | hz4
      · exact le_of_not_lt hlt
      · exact hy z hz4

/-- Helper: the Policy-Store sort produces a confidence-descending list. -/
theorem sortByConfDesc_sorted (l : List RuleDoc) : SortedDesc (sortByConfDesc l) := by
  suffices hgen : ∀ acc : List RuleDoc, SortedDesc acc →
      SortedDesc (l.foldl (fun a x => insertByConfDesc x a) acc) by
    simpa [sortByConfDesc] using hgen [] List.Pairwise.nil
  induction l with
  | nil => intro acc h; simpa using h
  | cons x xs ih =>
    intro acc h
    simp only [List.foldl_cons]
    exact ih _ (insertByConfDesc_sorted x acc h)

/-- Helper: the rule loop records at most one rule application. -/
theorem applyRulesLoop_apps_length (e : Email) (pc : PersonContext)
    (cc : ClusterContext) (b : Prediction) (l : List RuleDoc) :
    (applyRulesLoop e pc cc b l).1.length ≤ 1 := by
  induction l with
  | nil => simp [applyRulesLoop]
  | cons r rs ih =>
    by_cases hm : rule_matches r e pc cc = true
    · simp only [applyRulesLoop, hm, if_true]
      cases r.pattern <;> cases r.id <;> cases r.action <;> cases r.confidence <;> simp
    · have hm2 : rule_matches r e pc cc = false := by simpa using hm
      simp only [applyRulesLoop, hm2, Bool.false_eq_true, if_false]
      exact ih

/-- Helper: when no rule in the list matches, the loop falls through to the
base prediction and records nothing. -/
theorem applyRulesLoop_no_match (e : Email) (pc : PersonContext) (cc : ClusterContext)
    (b : Prediction) (l : List RuleDoc)
    (h : ∀ r ∈ l, rule_matches r e pc cc = false) :
    applyRulesLoop e pc cc b l = ([], .ok (.base b)) := by
  induction l with
  | nil => rfl
  | cons r rs ih =>
    have hr := h r (List.mem_cons_self r rs)
    simp only [applyRulesLoop, hr, Bool.false_eq_true, if_false]
    exact ih (fun q hq => h q (List.mem_cons_of_mem r hq))

/-- Helper: on a confidence-descending list of well-formed rules with at
least one match, the loop applies the first matching rule, which has maximal
confidence among the matching rules. -/
theorem applyRulesLoop_first_match (e : Email) (pc : PersonContext)
    (cc : ClusterContext) (b : Prediction) (l : List RuleDoc)
    (hs : SortedDesc l)
    (hwf : ∀ r ∈ l, r.pattern.isSome ∧ r.id.isSome ∧ r.action.isSome ∧ r.confidence.isSome)
    (hex : ∃ r ∈ l, rule_matches r e pc cc = true) :
    ∃ r, r ∈ l ∧ rule_matches r e pc cc = true ∧
      (∀ q ∈ l, rule_matches q e pc cc = true → confKey q ≤ confKey r) ∧
      applyRulesLoop e pc cc b l =
        ([⟨r.id.getD "", e.message_id, b.action, r.action.getD ""⟩],
         .ok (.overridden (r.action.getD "") (r.confidence.getD (mkRat 0 1))
            ("Learned rule: " ++ r.pattern.getD "") (r.id.getD "") b)) := by
  induction l with
  | nil =>
    rcases hex with ⟨r, hr, _⟩
    exact absurd hr (List.not_mem_nil r)
  | cons x xs ih =>
    rcases hwf x (List.mem_cons_self x xs) with ⟨hp, hi, ha, hc⟩
    rcases Option.isSome_iff_exists.mp hp with ⟨pat, hpat⟩
    rcases Option.isSome_iff_exists.mp hi with ⟨rid, hrid⟩
    rcases Option.isSome_iff_exists.mp ha with ⟨act, hact⟩
    rcases Option.isSome_iff_exists.mp hc with ⟨conf, hconf⟩
    rcases hs with _ | ⟨hx, hxs⟩
    by_cases hm : rule_matches x e pc cc = true
    · refine ⟨x, List.mem_cons_self x xs, hm, ?_, ?_⟩
      · intro q hq hqm
        rcases List.mem_cons.mp hq with rfl | hq2
        · exact le_refl _
        · exact hx q hq2
      · simp only [applyRulesLoop, hm, if_true, hpat, hrid, hact, hconf]
        simp [hpat, hrid, hact, hconf]
    · have hm2 : rule_matches x e pc cc = false := by simpa using hm
      have hex2 : ∃ r ∈ xs, rule_matches r e pc cc = true := by
        rcases hex with ⟨r, hr, hrm⟩
        rcases List.mem_cons.mp hr with rfl | hr2
        · exact absurd hrm hm
        · exact ⟨r, hr2, hrm⟩
      obtain ⟨r, hrmem, hrm, hmax, heq⟩ :=
        ih hxs (fun q hq => hwf q (List.mem_cons_of_mem x hq)) hex2
      refine ⟨r, List.mem_cons_of_mem x hrmem, hrm, ?_, ?_⟩
      · intro q hq hqm
        rcases List.mem_cons.mp hq with rfl | hq2
        · exact absurd hqm hm
        · exact hmax q hq2 hqm
      · simp only [applyRulesLoop, hm2, Bool.false_eq_true, if_false]
        exact heq

/-- C1: the decision evaluator sorts the active rules into Policy-Store
order (a permutation of the input that is confidence-descending), applies
the first matching rule — returning that rule's action, confidence and id
with the base prediction retained, where the applied rule has maximal
confidence among all matching rules — returns the base prediction unchanged
when no rule matches, and records at most one rule application per decision. -/
theorem c1_decision_evaluator (rules : List RuleDoc) (e : Email) (pc : PersonContext)
    (cc : ClusterContext) (b : Prediction)
    (hwf : ∀ r ∈ rules,
      r.pattern.isSome ∧ r.id.isSome ∧ r.action.isSome ∧ r.confidence.isSome) :
    (sortByConfDesc rules).Perm rules ∧
    SortedDesc (sortByConfDesc rules) ∧
    (apply_learned_rules_to_decision rules e pc cc b).1.length ≤ 1 ∧
    ((∀ r ∈ rules, rule_matches r e pc cc = false) →
      apply_learned_rules_to_decision rules e pc cc b = ([], .ok (.base b))) ∧
    ((∃ r ∈ rules, rule_matches r e pc cc = true) →
      ∃ r, r ∈ rules ∧ rule_matches r e pc cc = true ∧
        (∀ q ∈ rules, rule_matches q e pc cc = true → confKey q ≤ confKey r) ∧
        apply_learned_rules_to_decision rules e pc cc b =
          ([⟨r.id.getD "", e.message_id, b.action, r.action.getD ""⟩],
           .ok (.overridden (r.action.getD "") (r.confidence.getD (mkRat 0 1))
              ("Learned rule: " ++ r.pattern.getD "") (r.id.getD "") b))) := by
  have hperm := sortByConfDesc_perm rules
  have hsort := sortByConfDesc_sorted rules
  refine ⟨hperm, hsort, applyRulesLoop_apps_length e pc cc b (sortByConfDesc rules),
    ?_, ?_⟩
  · intro hnone
    exact applyRulesLoop_no_match e pc cc b (sortByConfDesc rules)
      (fun r hr => hnone r (hperm.mem_iff.mp hr))
  · intro hex
    have hex2 : ∃ r ∈ sortByConfDesc rules, rule_matches r e pc cc = true := by
      rcases hex with ⟨r, hr, hrm⟩
      exact ⟨r, hperm.mem_iff.mpr hr, hrm⟩
    obtain ⟨r, hrmem, hrm, hmax, heq⟩ :=
      applyRulesLoop_first_match e pc cc b (sortByConfDesc rules) hsort
        (fun q hq => hwf q (hperm.mem_iff.mp hq)) hex2
    exact ⟨r, hperm.mem_iff.mp hrmem, hrm,
      (fun q hq hqm => hmax q (hperm.mem_iff.mpr hq) hqm), heq⟩

/-- Witness for C1: the specification scenario.  The single active rule on
sender_domain acme.com with action archive and confidence 0.9 matches the
acme email and overrides the base prediction with action archive, the rule's
confidence, the rule id r1 and the base prediction retained. -/
theorem c1_witness :
    (∀ r ∈ [acmeRule],
      r.pattern.isSome ∧ r.id.isSome ∧ r.action.isSome ∧ r.confidence.isSome) ∧
    (∃ r ∈ [acmeRule], rule_matches r acmeEmail demoPerson demoCluster = true) ∧
    (∃ r, r ∈ [acmeRule] ∧ rule_matches r acmeEmail demoPerson demoCluster = true ∧
      (∀ q ∈ [acmeRule],
        rule_matches q acmeEmail demoPerson demoCluster = true → confKey q ≤ confKey r) ∧
      apply_learned_rules_to_decision [acmeRule] acmeEmail demoPerson demoCluster demoBase =
        ([⟨r.id.getD "", acmeEmail.message_id, demoBase.action, r.action.getD ""⟩],
         .ok (.overridden (r.action.getD "") (r.confidence.getD (mkRat 0 1))
            ("Learned rule: " ++ r.pattern.getD "") (r.id.getD "") demoBase))) := by
  refine ⟨by decide, ⟨acmeRule, by decide, by decide⟩, ?_⟩
  exact (c1_decision_evaluator [acmeRule] acmeEmail demoPerson demoCluster demoBase
    (by decide)).2.2.2.2 ⟨acmeRule, by decide, by decide⟩

/-- Helper: two bindings of the same key in a store with duplicate-free keys
hold the same document. -/
theorem keysNodup_mem_unique {α : Type} (s : List (String × α))
    (hnd : (s.map Prod.fst).Nodup) (k : String) (a b : α)
    (ha : (k, a) ∈ s) (hb : (k, b) ∈ s) : a = b := by
  induction s with
  | nil => exact absurd ha (List.not_mem_nil _)
  | cons kv tl ih =>
    rcases List.nodup_cons.mp (by simpa only [List.map_cons] using hnd) with ⟨hk, htl⟩
    rcases List.mem_cons.mp ha with rfl | ha2
    · rcases List.mem_cons.mp hb with hb1 | hb2
      · exact (congrArg Prod.snd hb1.symm : _)
      · exact absurd (List.mem_map_of_mem Prod.fst hb2) hk
    · rcases List.mem_cons.mp hb with rfl | hb2
      · exact absurd (List.mem_map_of_mem Prod.fst ha2) hk
      · exact ih htl ha2 hb2

/-- Helper: in a store with duplicate-free keys, lookup of a bound key
returns its document. -/
theorem storeFind_of_mem_nodup {α : Type} (s : List (String × α))
    (hnd : (s.map Prod.fst).Nodup) (k : String) (a : α)
    (ha : (k, a) ∈ s) : storeFind s k = some a := by
  induction s with
  | nil => exact absurd ha (List.not_mem_nil _)
  | cons kv tl ih =>
    rcases List.nodup_cons.mp (by simpa only [List.map_cons] using hnd) with ⟨hk, htl⟩
    rcases List.mem_cons.mp ha with rfl | ha2
    · simp [storeFind]
    · have hne : ¬(kv.1 = k) := by
        intro e
        exact hk (e ▸ List.mem_map_of_mem Prod.fst ha2)
      simp only [storeFind, beq_iff_eq, hne, if_false, ite_false]
      exact ih htl ha2

/-- Helper: deprecating a rule id rewrites exactly that document with the
deprecation fields. -/
theorem deprecate_failing_rule_find_eq (s : RuleStore) (rid reason : String) (now : Int) :
    storeFind (deprecate_failing_rule s rid reason now) rid =
      (storeFind s rid).map (deprecationUpdate reason now) :=
  storeFind_map_update s rid (deprecationUpdate reason now)

/-- Helper: deprecating a rule id leaves every other document unchanged. -/
theorem deprecate_failing_rule_find_ne (s : RuleStore) (rid reason : String) (now : Int)
    (k : String) (h : k ≠ rid) :
    storeFind (deprecate_failing_rule s rid reason now) k = storeFind s k :=
  storeFind_map_update_ne s rid k (deprecationUpdate reason now) h

/-- Helper: one deprecation-loop step does not touch documents under other
keys. -/
theorem depStep_find_ne (apps : List RuleApplication) (fbs : List FeedbackDoc)
    (now : Int) (acc : RuleStore × Nat) (kv : String × RuleDoc) (k : String)
    (h : k ≠ kv.1) :
    storeFind (depStep apps fbs now acc kv).1 k = storeFind acc.1 k := by
  simp only [depStep]
  split
  · exact deprecate_failing_rule_find_ne acc.1 kv.1 _ now k h
  · split
    · split
      · exact deprecate_failing_rule_find_ne acc.1 kv.1 _ now k h
      · rfl
    · rfl

/-- Helper: folding the deprecation loop over rules whose ids do not include
k leaves the document under k unchanged. -/
theorem depFold_find_not_mem (apps : List RuleApplication) (fbs : List FeedbackDoc)
    (now : Int) (l : List (String × RuleDoc)) (acc : RuleStore × Nat) (k : String)
    (hk : k ∉ l.map Prod.fst) :
    storeFind (l.foldl (depStep apps fbs now) acc).1 k = storeFind acc.1 k := by
  induction l generalizing acc with
  | nil => rfl
  | cons kv tl ih =>
    have hk1 : k ≠ kv.1 := fun e => hk (by simp [e])
    have hk2 : k ∉ tl.map Prod.fst := fun h2 => hk (by simp [h2])
    simp only [List.foldl_cons]
    exact (ih (depStep apps fbs now acc kv) hk2).trans
      (depStep_find_ne apps fbs now acc kv k hk1)

/-- Helper: folding the deprecation loop over a duplicate-free list
containing the binding (k, r) deprecates the document under k exactly when
the measured performance qualifies, and leaves it unchanged otherwise. -/
theorem depFold_find_mem (apps : List RuleApplication) (fbs : List FeedbackDoc)
    (now : Int) (l : List (String × RuleDoc)) (acc : RuleStore × Nat)
    (k : String) (r : RuleDoc)
    (hnd : (l.map Prod.fst).Nodup) (hmem : (k, r) ∈ l) :
    (((10 ≤ (get_rule_performance k apps fbs).times_used ∧
        (get_rule_performance k apps fbs).accuracy < mkRat 1 2) ∨
      ((get_rule_performance k apps fbs).times_used = 0 ∧
        30 < ageDays now (r.created_at.getD now))) →
      ∃ reason, storeFind (l.foldl (depStep apps fbs now) acc).1 k =
        (storeFind acc.1 k).map (deprecationUpdate reason now)) ∧
    (¬((10 ≤ (get_rule_performance k apps fbs).times_used ∧
        (get_rule_performance k apps fbs).accuracy < mkRat 1 2) ∨
      ((get_rule_performance k apps fbs).times_used = 0 ∧
        30 < ageDays now (r.created_at.getD now))) →
      storeFind (l.foldl (depStep apps fbs now) acc).1 k = storeFind acc.1 k) := by
  induction l generalizing acc with
  | nil => exact absurd hmem (List.not_mem_nil _)
  | cons kv tl ih =>
    rcases List.nodup_cons.mp (by simpa only [List.map_cons] using hnd) with ⟨hk, htl⟩
    rcases List.mem_cons.mp hmem with heq | hmem2
    · have hkkv : kv = (k, r) := heq.symm
      subst hkkv
      have hknot : k ∉ tl.map Prod.fst := hk
      simp only [List.foldl_cons]
      have hrest : ∀ acc2 : RuleStore × Nat,
          storeFind (tl.foldl (depStep apps fbs now) acc2).1 k = storeFind acc2.1 k :=
        fun acc2 => depFold_find_not_mem apps fbs now tl acc2 k hknot
      constructor
      · intro hdep
        rcases hdep with h1 | h2
        · refine ⟨lowAccuracyReason (get_rule_performance k apps fbs).accuracy
            (get_rule_performance k apps fbs).times_used, ?_⟩
          rw [hrest]
          simp only [depStep]
          rw [if_pos h1]
          exact deprecate_failing_rule_find_eq acc.1 k _ now
        · by_cases h1 : 10 ≤ (get_rule_performance k apps fbs).times_used ∧
              (get_rule_performance k apps fbs).accuracy < mkRat 1 2
          · refine ⟨lowAccuracyReason (get_rule_performance k apps fbs).accuracy
              (get_rule_performance k apps fbs).times_used, ?_⟩
            rw [hrest]
            simp only [depStep]
            rw [if_pos h1]
            exact deprecate_failing_rule_find_eq acc.1 k _ now
          · refine ⟨neverUsedReason (ageDays now (r.created_at.getD now)), ?_⟩
            rw [hrest]
            simp only [depStep]
            rw [if_neg h1, if_pos h2.1, if_pos h2.2]
            exact deprecate_failing_rule_find_eq acc.1 k _ now
      · intro hndep
        rcases not_or.mp hndep with ⟨hn1, hn2⟩
        rw [hrest]
        simp only [depStep]
        rw [if_neg hn1]
        by_cases hz : (get_rule_performance k apps fbs).times_used = 0
        · rw [if_pos hz, if_neg (fun h3 => hn2 ⟨hz, h3⟩)]
        · rw [if_neg hz]
    · have hkv1 : kv.1 ≠ k := by
        intro e
        exact hk (e ▸ List.mem_map_of_mem Prod.fst hmem2)
      have hstep := depStep_find_ne apps fbs now acc kv k (fun e => hkv1 e.symm)
      simp only [List.foldl_cons]
      rcases ih (depStep apps fbs now acc kv) htl hmem2 with ⟨ihdep, ihndep⟩
      constructor
      · intro hdep
        rcases ihdep hdep with ⟨reason, hr⟩
        exact ⟨reason, by rw [hr, hstep]⟩
      · intro hndep
        rw [ihndep hndep, hstep]

/-- C5: on a Performance-Monitor cycle, an active rule is deprecated exactly
when it was used at least 10 times with accuracy below one half, or never
used and older than 30 days; deprecation overwrites the stored document with
status deprecated, a reason string and the deprecated_at timestamp
(deprecationUpdate); rules that are not active are untouched, so a rule once
deprecated is never reactivated by this component. -/
theorem c5_deprecation_policy (store : RuleStore) (apps : List RuleApplication)
    (fbs : List FeedbackDoc) (now : Int)
    (hnd : (store.map Prod.fst).Nodup) (k : String) (r : RuleDoc)
    (hmem : (k, r) ∈ store) :
    storeFind store k = some r ∧
    (r.status ≠ some "active" →
      storeFind (deprecate_underperforming_rules store apps fbs now).1 k = some r) ∧
    (r.status = some "active" →
      (((10 ≤ (get_rule_performance k apps fbs).times_used ∧
          (get_rule_performance k apps fbs).accuracy < mkRat 1 2) ∨
        ((get_rule_performance k apps fbs).times_used = 0 ∧
          30 < ageDays now (r.created_at.getD now))) →
        ∃ reason, storeFind (deprecate_underperforming_rules store apps fbs now).1 k =
          some (deprecationUpdate reason now r)) ∧
      (¬((10 ≤ (get_rule_performance k apps fbs).times_used ∧
          (get_rule_performance k apps fbs).accuracy < mkRat 1 2) ∨
        ((get_rule_performance k apps fbs).times_used = 0 ∧
          30 < ageDays now (r.created_at.getD now))) →
        storeFind (deprecate_underperforming_rules store apps fbs now).1 k = some r)) := by
  have hfind : storeFind store k = some r := storeFind_of_mem_nodup store hnd k r hmem
  have hactivesub : ((activeRulesWithId store).map Prod.fst).Nodup :=
    ((List.filter_sublist store).map Prod.fst).nodup hnd
  refine ⟨hfind, ?_, ?_⟩
  · intro hstat
    have hknot : k ∉ (activeRulesWithId store).map Prod.fst := by
      intro hkin
      rcases List.mem_map.mp hkin with ⟨kv, hkv, hfst⟩
      rcases List.mem_filter.mp hkv with ⟨hkvs, hkvstat⟩
      have : kv.2 = r := by
        apply keysNodup_mem_unique store hnd k kv.2 r ?_ hmem
        rw [← hfst]
        exact hkvs
      rw [this] at hkvstat
      exact hstat (by simpa using hkvstat)
    have := depFold_find_not_mem apps fbs now (activeRulesWithId store) (store, 0) k hknot
    rw [deprecate_underperforming_rules, this, hfind]
  · intro hstat
    have hmem2 : (k, r) ∈ activeRulesWithId store := by
      apply List.mem_filter.mpr
      exact ⟨hmem, by simpa using hstat⟩
    rcases depFold_find_mem apps fbs now (activeRulesWithId store) (store, 0) k r
      hactivesub hmem2 with ⟨hdep, hndep⟩
    constructor
    · intro hq
      rcases hdep hq with ⟨reason, hr⟩
      refine ⟨reason, ?_⟩
      rw [deprecate_underperforming_rules, hr, hfind]
      rfl
    · intro hq
      rw [deprecate_underperforming_rules, hndep hq, hfind]

/-- Witness for C5: the specification scenario.  Rule r1 has been used 12
times with 5 correct outcomes (accuracy 5/12 below one half) and is
deprecated with a reason and timestamp; rule r2 has been used 8 times with
the same accuracy profile and is left untouched. -/
theorem c5_witness :
    (demoRuleStore.map Prod.fst).Nodup ∧
    ("r1", demoRule1) ∈ demoRuleStore ∧
    (10 ≤ (get_rule_performance "r1" demoApps demoFbs).times_used ∧
      (get_rule_performance "r1" demoApps demoFbs).accuracy < mkRat 1 2) ∧
    (∃ reason,
      storeFind (deprecate_underperforming_rules demoRuleStore demoApps demoFbs 86400).1
          "r1" = some (deprecationUpdate reason 86400 demoRule1)) ∧
    ¬((10 ≤ (get_rule_performance "r2" demoApps demoFbs).times_used ∧
        (get_rule_performance "r2" demoApps demoFbs).accuracy < mkRat 1 2) ∨
      ((get_rule_performance "r2" demoApps demoFbs).times_used = 0 ∧
        30 < ageDays 86400 (demoRule2.created_at.getD 86400))) ∧
    storeFind (deprecate_underperforming_rules demoRuleStore demoApps demoFbs 86400).1
        "r2" = some demoRule2 := by
  refine ⟨by decide, by decide, by decide, ?_, by decide, ?_⟩
  · exact ((c5_deprecation_policy demoRuleStore demoApps demoFbs 86400 (by decide)
      "r1" demoRule1 (by decide)).2.2 (by decide)).1 (Or.inl (by decide))
  · exact ((c5_deprecation_policy demoRuleStore demoApps demoFbs 86400 (by decide)
      "r2" demoRule2 (by decide)).2.2 (by decide)).2 (by decide)

end Inscriptum
